import Mathlib

/-!
Shallow embedding of the meta-search orchestrator core (tiered retrieval,
confidence scoring, semantic routing, token-bucket rate limiter, TTL/LRU
result cache) and proofs of its specified properties.

Conventions of the embedding:
* Rust `f32`/`f64` arithmetic is modelled over `ℚ` (the scoring code performs
  only additions, multiplications, divisions by positive counts, `min` and
  `clamp`, so no rounding subtleties are relied upon by the properties).
* Rust `str::len()` is a UTF-8 byte count; it is modelled by `utf8Len`
  (the sum of `Char.utf8Size` over the characters of the word).
* Rust `str::contains` on valid UTF-8 coincides with character-sequence
  infix containment, modelled by `containsSeq`.
* `String::to_lowercase`/`split_whitespace` are modelled by `lowerStr`
  and `splitWs` (ASCII lowering / ASCII whitespace; all string constants in
  the repository's routing code are unaffected by the difference).
* Backend HTTP clients are abstracted by the function they compute:
  a query (plus result budget) to either a `SearchError` or a result list.
-/

/-- ASCII lowering at the character level: Rust's `to_lowercase` restricted
to the character sets the routing code actually lowers. -/
def lowerStr (s : String) : String := String.mk (s.data.map Char.toLower)

/-- Accumulator-based splitter: groups maximal runs of non-whitespace
characters, dropping whitespace, as Rust's `split_whitespace` does. -/
def splitWsAux : List Char → List Char → List (List Char)
  | [], acc => if acc.isEmpty then [] else [acc.reverse]
  | c :: cs, acc =>
    if c.isWhitespace then
      if acc.isEmpty then splitWsAux cs []
      else acc.reverse :: splitWsAux cs []
    else splitWsAux cs (c :: acc)

/-- Whitespace-separated words of a string, as lists of characters. -/
def wordsOf (s : String) : List (List Char) := splitWsAux s.data []

/-- UTF-8 byte length of a word: Rust's `str::len()`. -/
def utf8Len (w : List Char) : Nat := (w.map Char.utf8Size).sum

/-- Decides whether the first list is an initial segment of the second. -/
def leadingSegEq : List Char → List Char → Bool
  | [], _ => true
  | _ :: _, [] => false
  | a :: as, b :: bs => a == b && leadingSegEq as bs

/-- Decides whether `pat` occurs as a contiguous subsequence of the first
argument: Rust's `str::contains` at the character level. -/
def containsSeq : List Char → List Char → Bool
  | [], pat => pat.isEmpty
  | c :: rest, pat => leadingSegEq pat (c :: rest) || containsSeq rest pat

/-- String form of `containsSeq`. -/
def strContains (s pat : String) : Bool := containsSeq s.data pat.data

/-- Removes duplicates keeping the first occurrence of each element
(insertion order preserved), via a seen-set accumulator. -/
def dedupFirstAux {α : Type} [DecidableEq α] : List α → List α → List α
  | _, [] => []
  | seen, x :: xs =>
    if x ∈ seen then dedupFirstAux seen xs else x :: dedupFirstAux (x :: seen) xs

/-- Duplicate removal keeping first occurrences. -/
def dedupFirst {α : Type} [DecidableEq α] (l : List α) : List α := dedupFirstAux [] l

/-- Rust's `f32::clamp(lo, hi)`. -/
def rustClamp (lo hi x : ℚ) : ℚ := if x < lo then lo else if hi < x then hi else x

/-- The unified search-result record of `types.rs`. -/
structure SearchResult where
  title : String
  url : String
  snippet : Option String
  content : Option String
deriving DecidableEq, Repr

/-- The error taxonomy of `types.rs`. -/
inductive SearchError where
  | NetworkError (msg : String)
  | ApiError (msg : String)
  | ParseError (msg : String)
deriving DecidableEq, Repr

/-- Weight configuration of the confidence calculator (`confidence.rs`). -/
structure ConfidenceConfig where
  result_count_weight : ℚ
  title_relevance_weight : ℚ
  url_authority_weight : ℚ
  content_quality_weight : ℚ
  semantic_density_weight : ℚ
deriving DecidableEq, Repr

/-- Default weights of `ConfidenceConfig::default`. -/
def ConfidenceConfig.default : ConfidenceConfig :=
  { result_count_weight := 3/20
    title_relevance_weight := 3/10
    url_authority_weight := 1/5
    content_quality_weight := 1/5
    semantic_density_weight := 3/20 }

/-- The confidence calculator: weights plus the authority-domain allow-list. -/
structure ConfidenceCalculator where
  config : ConfidenceConfig
  authority_domains : List String
deriving DecidableEq, Repr

/-- `ConfidenceCalculator::new`: default weights and the fixed domain list. -/
def ConfidenceCalculator.new : ConfidenceCalculator :=
  { config := ConfidenceConfig.default
    authority_domains :=
      ["github.com", "stackoverflow.com", "docs.rs", "rust-lang.org",
       "arxiv.org", "wikipedia.org", "cve.mitre.org", "nvd.nist.gov"] }

/-- Significant query terms: lower-cased whitespace words of the query whose
UTF-8 length exceeds 2 bytes (the filter both relevance scorers apply). -/
def queryWords (query : String) : List (List Char) :=
  (wordsOf (lowerStr query)).filter (fun w => 2 < utf8Len w)

/-- `ConfidenceCalculator::score_result_count`: step function of the count. -/
def score_result_count (count : Nat) : ℚ :=
  if count = 0 then 0
  else if count ≤ 2 then 3/10
  else if count ≤ 5 then 3/5
  else if count ≤ 10 then 9/10
  else 1

/-- `ConfidenceCalculator::score_title_relevance`: mean fraction of
significant query terms occurring in each lower-cased title; 0.5 fallback
when no significant query term exists. -/
def score_title_relevance (query : String) (results : List SearchResult) : ℚ :=
  let qws := queryWords query
  if qws.isEmpty then 1/2
  else
    let total := (results.map (fun r =>
      ((qws.filter (fun w => containsSeq (lowerStr r.title).data w)).length : ℚ)
        / (qws.length : ℚ))).sum
    min (total / (results.length : ℚ)) 1

/-- `ConfidenceCalculator::score_url_authority`: fraction of results whose
URL contains an authority domain. -/
def score_url_authority (domains : List String) (results : List SearchResult) : ℚ :=
  min
    (((results.filter (fun r => domains.any (fun d => strContains r.url d))).length : ℚ)
      / (results.length : ℚ)) 1

/-- Per-result additive quality score of
`ConfidenceCalculator::score_content_quality` (content length in bytes). -/
def contentQualityOf (r : SearchResult) : ℚ :=
  (if r.snippet.isSome then (3 : ℚ)/10 else 0) +
  (match r.content with
   | none => 0
   | some c =>
     (3 : ℚ)/10 + (if 500 < c.utf8ByteSize then (1 : ℚ)/5 else 0)
       + (if 1000 < c.utf8ByteSize then (1 : ℚ)/5 else 0))

/-- `ConfidenceCalculator::score_content_quality`: mean per-result quality. -/
def score_content_quality (results : List SearchResult) : ℚ :=
  min ((results.map contentQualityOf).sum / (results.length : ℚ)) 1

/-- Per-result semantic density of
`ConfidenceCalculator::score_semantic_density`: hit ratio times unique-word
ratio over the lower-cased title-plus-snippet text; empty texts contribute 0. -/
def densityOf (qws : List (List Char)) (r : SearchResult) : ℚ :=
  let text := lowerStr (r.title ++ " " ++ (r.snippet.getD ""))
  let ws := wordsOf text
  if ws.isEmpty then 0
  else
    let relevant := (ws.filter (fun w => qws.any (fun qw => containsSeq w qw))).length
    ((relevant : ℚ) / (ws.length : ℚ)) * (((dedupFirst ws).length : ℚ) / (ws.length : ℚ))

/-- `ConfidenceCalculator::score_semantic_density`: mean density amplified
by 10 and capped at 1; 0.5 fallback when no significant query term exists. -/
def score_semantic_density (query : String) (results : List SearchResult) : ℚ :=
  let qws := queryWords query
  if qws.isEmpty then 1/2
  else
    min ((results.map (densityOf qws)).sum / (results.length : ℚ) * 10) 1

/-- `ConfidenceCalculator::calculate`: 0 on an empty result list, else the
weighted sum of the five sub-scores clamped to `[0, 1]`. -/
def ConfidenceCalculator.calculate (c : ConfidenceCalculator) (query : String)
    (results : List SearchResult) : ℚ :=
  if results.isEmpty then 0
  else
    let total :=
      score_result_count results.length * c.config.result_count_weight
      + score_title_relevance query results * c.config.title_relevance_weight
      + score_url_authority c.authority_domains results * c.config.url_authority_weight
      + score_content_quality results * c.config.content_quality_weight
      + score_semantic_density query results * c.config.semantic_density_weight
    rustClamp 0 1 total

/-- Membership of `rustClamp` in its interval. -/
theorem rustClamp_bounds (lo hi x : ℚ) (h : lo ≤ hi) :
    lo ≤ rustClamp lo hi x ∧ rustClamp lo hi x ≤ hi := by
  unfold rustClamp
  split_ifs with h1 h2 <;> constructor <;> linarith

/-- C2: for every calculator, query and result list, `calculate` lands in
`[0, 1]`, and on the empty result list it returns exactly `0`. -/
theorem calculate_bounded_and_empty_zero (c : ConfidenceCalculator) (query : String)
    (results : List SearchResult) :
    (0 ≤ c.calculate query results ∧ c.calculate query results ≤ 1)
      ∧ c.calculate query [] = 0 := by
  constructor
  · unfold ConfidenceCalculator.calculate
    split_ifs with h
    · exact ⟨le_refl 0, by norm_num⟩
    · exact rustClamp_bounds 0 1 _ (by norm_num)
  · rfl

/-- Task-complexity classification of `semantic_router.rs`. -/
inductive TaskComplexity where
  | Simple
  | Medium
  | Complex
deriving DecidableEq, Repr

/-- Router configuration (`semantic_router.rs`). -/
structure RouterConfig where
  simple_max_length : Nat
  complex_keywords : List String
  enable_semantic_analysis : Bool
deriving DecidableEq, Repr

/-- `RouterConfig::default`: threshold 50 and the fixed keyword list. -/
def RouterConfig.default : RouterConfig :=
  { simple_max_length := 50
    complex_keywords :=
      ["分析", "比較", "為什麼", "如何", "evaluate", "analyze", "compare"]
    enable_semantic_analysis := true }

/-- Presence of a complexity keyword: some configured keyword, lower-cased,
occurs in the lower-cased query. -/
def hasComplexKeyword (cfg : RouterConfig) (query : String) : Bool :=
  cfg.complex_keywords.any (fun kw => strContains (lowerStr query) (lowerStr kw))

/-- Clause-separator test: the comma-like punctuation of the router. -/
def isClauseSep (c : Char) : Bool := c == ',' || c == '，' || c == '、'

/-- Number of question marks (ASCII or fullwidth) in the query. -/
def questionCount (query : String) : Nat :=
  (query.data.filter (fun c => c == '?' || c == '？')).length

/-- `SemanticRouter::classify`, translated clause by clause: clause count is
separator count plus one; length is the character count of the query. -/
def classify (cfg : RouterConfig) (query : String) : TaskComplexity :=
  let has_complex_keyword := hasComplexKeyword cfg query
  let clause_count := (query.data.filter isClauseSep).length + 1
  let question_count := questionCount query
  if 1 < question_count ∨ 2 < clause_count
      ∨ (has_complex_keyword = true ∧ 100 < query.length) then
    TaskComplexity.Complex
  else if has_complex_keyword = true ∨ cfg.simple_max_length < query.length then
    TaskComplexity.Medium
  else
    TaskComplexity.Simple

/-- Splits a character list at clause separators, keeping empty clauses, so
that the number of produced clauses is visible as a list length. -/
def splitClausesAux : List Char → List Char → List (List Char)
  | [], acc => [acc.reverse]
  | c :: cs, acc =>
    if isClauseSep c then acc.reverse :: splitClausesAux cs []
    else splitClausesAux cs (c :: acc)

/-- Clauses of a query, as split at comma-like punctuation. -/
def clauseSplit (query : String) : List (List Char) := splitClausesAux query.data []

/-- Clause-splitting a list yields one more clause than there are separators. -/
theorem splitClausesAux_length (l : List Char) :
    ∀ acc, (splitClausesAux l acc).length = (l.filter isClauseSep).length + 1 := by
  induction l with
  | nil => intro acc; simp [splitClausesAux]
  | cons c cs ih =>
    intro acc
    by_cases h : isClauseSep c = true
    · simp [splitClausesAux, h, ih]
    · simp only [Bool.not_eq_true] at h
      simp [splitClausesAux, h, ih]

/-- The classifier restated in the spec's vocabulary: first matching rule
wins, with the clause condition phrased as splitting into more than two
clauses. -/
def classifySpec (cfg : RouterConfig) (query : String) : TaskComplexity :=
  if 1 < questionCount query ∨ 2 < (clauseSplit query).length
      ∨ (hasComplexKeyword cfg query = true ∧ 100 < query.length) then
    TaskComplexity.Complex
  else if hasComplexKeyword cfg query = true ∨ cfg.simple_max_length < query.length then
    TaskComplexity.Medium
  else
    TaskComplexity.Simple

/-- C3: for every configuration the classifier agrees with the spec's
cascaded rules (Complex iff many questions, more than two clauses, or a
keyword on a query longer than 100 characters; else Medium iff a keyword is
present or the query exceeds the simple-length threshold; else Simple), and
the empty query classifies as Simple under the default configuration. -/
theorem classify_matches_spec_rules (cfg : RouterConfig) (query : String) :
    classify cfg query = classifySpec cfg query
      ∧ (classify cfg query = TaskComplexity.Complex ↔
          (1 < questionCount query ∨ 2 < (clauseSplit query).length
            ∨ (hasComplexKeyword cfg query = true ∧ 100 < query.length)))
      ∧ (classify cfg query = TaskComplexity.Medium ↔
          (¬(1 < questionCount query ∨ 2 < (clauseSplit query).length
              ∨ (hasComplexKeyword cfg query = true ∧ 100 < query.length))
            ∧ (hasComplexKeyword cfg query = true
                ∨ cfg.simple_max_length < query.length)))
      ∧ (classify cfg query = TaskComplexity.Simple ↔
          (¬(1 < questionCount query ∨ 2 < (clauseSplit query).length
              ∨ (hasComplexKeyword cfg query = true ∧ 100 < query.length))
            ∧ ¬(hasComplexKeyword cfg query = true
                ∨ cfg.simple_max_length < query.length)))
      ∧ classify RouterConfig.default "" = TaskComplexity.Simple := by
  have hlen : (clauseSplit query).length = (query.data.filter isClauseSep).length + 1 :=
    splitClausesAux_length query.data []
  refine ⟨?_, ?_, ?_, ?_, by decide⟩ <;>
    simp only [classify, classifySpec, hlen] <;> split_ifs with h1 h2 <;>
    simp_all

/-- Tiered-retrieval thresholds and per-tier budget (`tiered_retrieval.rs`). -/
structure TieredConfig where
  l1_threshold : ℚ
  l2_threshold : ℚ
  max_results_per_tier : Nat
deriving DecidableEq, Repr

/-- `TieredConfig::default`: 0.80, 0.85, 10. -/
def TieredConfig.default : TieredConfig :=
  { l1_threshold := 4/5, l2_threshold := 17/20, max_results_per_tier := 10 }

/-- The escalation ladder. -/
inductive RetrievalTier where
  | L1
  | L2
  | L3
deriving DecidableEq, Repr

/-- Outcome record of a tiered search. -/
structure TieredResult where
  results : List SearchResult
  tier_used : RetrievalTier
  confidence : ℚ
  cost_estimate : ℚ
deriving DecidableEq, Repr

/-- The tiered-retrieval engine. The three HTTP clients are abstracted by
the search functions they compute (`DuckDuckGoClient::search`,
`ExaClient::search`, `TavilyClient::extract_content`); Exa and Tavily are
optional exactly as in the source. -/
structure TieredRetrieval where
  duckduckgo : String → Nat → Except SearchError (List SearchResult)
  exa : Option (String → Nat → Except SearchError (List SearchResult))
  tavily : Option (List String → Except SearchError (List SearchResult))
  confidence_calc : ConfidenceCalculator
  config : TieredConfig

/-- Joins words with single spaces (`[&str]::join(" ")`). -/
def joinWords : List (List Char) → List Char
  | [] => []
  | [w] => w
  | w :: ws => w ++ ' ' :: joinWords ws

/-- `TieredRetrieval::refine_query`: the first five snippet words longer
than 3 bytes (in order of appearance, duplicates retained) appended to the
original query; the query unchanged when no such word exists. -/
def refine_query (original : String) (l1_results : List SearchResult) : String :=
  let keywords :=
    (((l1_results.filterMap (fun r => r.snippet)).flatMap (fun s => wordsOf s)).filter
      (fun w => 3 < utf8Len w)).take 5
  if keywords.isEmpty then original
  else String.mk (original.data ++ ' ' :: joinWords keywords)

/-- `TieredRetrieval::search`, instrumented with the list of tiers whose
backend was invoked (in invocation order). Each tier call, threshold test,
optionality test, refined query and cost constant is translated from the
source in order. -/
def TieredRetrieval.searchT (tr : TieredRetrieval) (query : String) :
    Except SearchError TieredResult × List RetrievalTier :=
  match tr.duckduckgo query tr.config.max_results_per_tier with
  | .error e => (.error e, [.L1])
  | .ok l1_results =>
    let l1_confidence := tr.confidence_calc.calculate query l1_results
    if tr.config.l1_threshold ≤ l1_confidence then
      (.ok ⟨l1_results, .L1, l1_confidence, 0⟩, [.L1])
    else
      match tr.exa with
      | none => (.ok ⟨l1_results, .L1, l1_confidence, 0⟩, [.L1])
      | some exaClient =>
        let refined_query := refine_query query l1_results
        match exaClient refined_query tr.config.max_results_per_tier with
        | .error e => (.error e, [.L1, .L2])
        | .ok l2_results =>
          let l2_confidence := tr.confidence_calc.calculate query l2_results
          if tr.config.l2_threshold ≤ l2_confidence then
            (.ok ⟨l2_results, .L2, l2_confidence, 1/200⟩, [.L1, .L2])
          else
            match tr.tavily with
            | none => (.ok ⟨l2_results, .L2, l2_confidence, 1/200⟩, [.L1, .L2])
            | some tavilyClient =>
              let top_urls := (l2_results.take 3).map (fun r => r.url)
              match tavilyClient top_urls with
              | .error e => (.error e, [.L1, .L2, .L3])
              | .ok l3_results =>
                (.ok ⟨l3_results, .L3, tr.confidence_calc.calculate query l3_results, 3/200⟩,
                  [.L1, .L2, .L3])

/-- `TieredRetrieval::search`: the result component of the instrumented run. -/
def TieredRetrieval.search (tr : TieredRetrieval) (query : String) :
    Except SearchError TieredResult :=
  (tr.searchT query).1

/-- Identity of a backend, for resource-event bookkeeping. -/
inductive BackendId where
  | ddg
  | exa
  | tavily
deriving DecidableEq, Repr

/-- Resource-relevant primitive actions of the networking layer. -/
inductive ResourceEvent where
  | httpRequest (b : BackendId)
  | poolAcquire
  | poolRelease
  | rateAcquire
deriving DecidableEq, Repr

/-- Resource events of one invocation of each tier's backend client, read
off the client bodies: `DuckDuckGoClient::search`, `ExaClient::search` and
`TavilyClient::extract_content` each send their HTTP request directly on
the client's own private `reqwest::Client`, acquiring neither a connection
pool permit nor a rate-limiter token. -/
def tierEvents : RetrievalTier → List ResourceEvent
  | .L1 => [.httpRequest .ddg]
  | .L2 => [.httpRequest .exa]
  | .L3 => [.httpRequest .tavily]

/-- Resource events of `PooledClient::get`/`post_json` (`connection_pool.rs`):
semaphore permit acquired, request sent, permit released when the guard
drops. Shown for contrast: the tiered engine never routes a call through
`PooledClient`. -/
def pooledClientEvents (b : BackendId) : List ResourceEvent :=
  [.poolAcquire, .httpRequest b, .poolRelease]

/-- Resource events of one `TieredRetrieval::search` run: the events of each
invoked tier's client, in invocation order. -/
def TieredRetrieval.searchEvents (tr : TieredRetrieval) (query : String) :
    List ResourceEvent :=
  ((tr.searchT query).2).flatMap tierEvents

/-- Branch lemma: a failing L1 call aborts the search at once. -/
theorem searchT_ddg_err (tr : TieredRetrieval) (q : String) (e : SearchError)
    (h : tr.duckduckgo q tr.config.max_results_per_tier = .error e) :
    tr.searchT q = (.error e, [.L1]) := by
  unfold TieredRetrieval.searchT
  rw [h]

/-- Branch lemma: L1 confidence at or above threshold returns at L1. -/
theorem searchT_l1_pass (tr : TieredRetrieval) (q : String) (l1 : List SearchResult)
    (h : tr.duckduckgo q tr.config.max_results_per_tier = .ok l1)
    (hc : tr.config.l1_threshold ≤ tr.confidence_calc.calculate q l1) :
    tr.searchT q = (.ok ⟨l1, .L1, tr.confidence_calc.calculate q l1, 0⟩, [.L1]) := by
  unfold TieredRetrieval.searchT
  rw [h]
  simp only [if_pos hc]

/-- Branch lemma: low L1 confidence with no Exa configured returns at L1. -/
theorem searchT_exa_none (tr : TieredRetrieval) (q : String) (l1 : List SearchResult)
    (h : tr.duckduckgo q tr.config.max_results_per_tier = .ok l1)
    (hc : tr.confidence_calc.calculate q l1 < tr.config.l1_threshold)
    (hx : tr.exa = none) :
    tr.searchT q = (.ok ⟨l1, .L1, tr.confidence_calc.calculate q l1, 0⟩, [.L1]) := by
  unfold TieredRetrieval.searchT
  rw [h]
  simp only [if_neg (not_le.mpr hc), hx]

/-- Branch lemma: a failing L2 call aborts the search. -/
theorem searchT_exa_err (tr : TieredRetrieval) (q : String) (l1 : List SearchResult)
    (exaF : String → Nat → Except SearchError (List SearchResult)) (e : SearchError)
    (h : tr.duckduckgo q tr.config.max_results_per_tier = .ok l1)
    (hc : tr.confidence_calc.calculate q l1 < tr.config.l1_threshold)
    (hx : tr.exa = some exaF)
    (h2 : exaF (refine_query q l1) tr.config.max_results_per_tier = .error e) :
    tr.searchT q = (.error e, [.L1, .L2]) := by
  unfold TieredRetrieval.searchT
  rw [h]
  simp only [if_neg (not_le.mpr hc), hx, h2]

/-- Branch lemma: L2 confidence at or above threshold returns at L2. -/
theorem searchT_l2_pass (tr : TieredRetrieval) (q : String)
    (l1 l2 : List SearchResult)
    (exaF : String → Nat → Except SearchError (List SearchResult))
    (h : tr.duckduckgo q tr.config.max_results_per_tier = .ok l1)
    (hc : tr.confidence_calc.calculate q l1 < tr.config.l1_threshold)
    (hx : tr.exa = some exaF)
    (h2 : exaF (refine_query q l1) tr.config.max_results_per_tier = .ok l2)
    (hc2 : tr.config.l2_threshold ≤ tr.confidence_calc.calculate q l2) :
    tr.searchT q =
      (.ok ⟨l2, .L2, tr.confidence_calc.calculate q l2, 1/200⟩, [.L1, .L2]) := by
  unfold TieredRetrieval.searchT
  rw [h]
  simp only [if_neg (not_le.mpr hc), hx, h2, if_pos hc2]

/-- Branch lemma: low L2 confidence with no Tavily configured returns at L2. -/
theorem searchT_tavily_none (tr : TieredRetrieval) (q : String)
    (l1 l2 : List SearchResult)
    (exaF : String → Nat → Except SearchError (List SearchResult))
    (h : tr.duckduckgo q tr.config.max_results_per_tier = .ok l1)
    (hc : tr.confidence_calc.calculate q l1 < tr.config.l1_threshold)
    (hx : tr.exa = some exaF)
    (h2 : exaF (refine_query q l1) tr.config.max_results_per_tier = .ok l2)
    (hc2 : tr.confidence_calc.calculate q l2 < tr.config.l2_threshold)
    (ht : tr.tavily = none) :
    tr.searchT q =
      (.ok ⟨l2, .L2, tr.confidence_calc.calculate q l2, 1/200⟩, [.L1, .L2]) := by
  unfold TieredRetrieval.searchT
  rw [h]
  simp only [if_neg (not_le.mpr hc), hx, h2, if_neg (not_le.mpr hc2), ht]

/-- Branch lemma: a failing L3 extraction aborts the search. -/
theorem searchT_tavily_err (tr : TieredRetrieval) (q : String)
    (l1 l2 : List SearchResult)
    (exaF : String → Nat → Except SearchError (List SearchResult))
    (tavF : List String → Except SearchError (List SearchResult)) (e : SearchError)
    (h : tr.duckduckgo q tr.config.max_results_per_tier = .ok l1)
    (hc : tr.confidence_calc.calculate q l1 < tr.config.l1_threshold)
    (hx : tr.exa = some exaF)
    (h2 : exaF (refine_query q l1) tr.config.max_results_per_tier = .ok l2)
    (hc2 : tr.confidence_calc.calculate q l2 < tr.config.l2_threshold)
    (ht : tr.tavily = some tavF)
    (h3 : tavF ((l2.take 3).map (fun r => r.url)) = .error e) :
    tr.searchT q = (.error e, [.L1, .L2, .L3]) := by
  unfold TieredRetrieval.searchT
  rw [h]
  simp only [if_neg (not_le.mpr hc), hx, h2, if_neg (not_le.mpr hc2), ht, h3]

/-- Branch lemma: a successful L3 extraction is always returned. -/
theorem searchT_l3 (tr : TieredRetrieval) (q : String)
    (l1 l2 l3 : List SearchResult)
    (exaF : String → Nat → Except SearchError (List SearchResult))
    (tavF : List String → Except SearchError (List SearchResult))
    (h : tr.duckduckgo q tr.config.max_results_per_tier = .ok l1)
    (hc : tr.confidence_calc.calculate q l1 < tr.config.l1_threshold)
    (hx : tr.exa = some exaF)
    (h2 : exaF (refine_query q l1) tr.config.max_results_per_tier = .ok l2)
    (hc2 : tr.confidence_calc.calculate q l2 < tr.config.l2_threshold)
    (ht : tr.tavily = some tavF)
    (h3 : tavF ((l2.take 3).map (fun r => r.url)) = .ok l3) :
    tr.searchT q =
      (.ok ⟨l3, .L3, tr.confidence_calc.calculate q l3, 3/200⟩, [.L1, .L2, .L3]) := by
  unfold TieredRetrieval.searchT
  rw [h]
  simp only [if_neg (not_le.mpr hc), hx, h2, if_neg (not_le.mpr hc2), ht, h3]

/-- Exhaustive branch analysis of a tiered search run: exactly one of the
eight control-flow paths of the source is taken. -/
theorem searchT_branches (tr : TieredRetrieval) (q : String) :
    (∃ e, tr.duckduckgo q tr.config.max_results_per_tier = .error e
      ∧ tr.searchT q = (.error e, [.L1]))
    ∨ (∃ l1, tr.duckduckgo q tr.config.max_results_per_tier = .ok l1
      ∧ tr.config.l1_threshold ≤ tr.confidence_calc.calculate q l1
      ∧ tr.searchT q = (.ok ⟨l1, .L1, tr.confidence_calc.calculate q l1, 0⟩, [.L1]))
    ∨ (∃ l1, tr.duckduckgo q tr.config.max_results_per_tier = .ok l1
      ∧ tr.confidence_calc.calculate q l1 < tr.config.l1_threshold
      ∧ tr.exa = none
      ∧ tr.searchT q = (.ok ⟨l1, .L1, tr.confidence_calc.calculate q l1, 0⟩, [.L1]))
    ∨ (∃ l1 exaF e, tr.duckduckgo q tr.config.max_results_per_tier = .ok l1
      ∧ tr.confidence_calc.calculate q l1 < tr.config.l1_threshold
      ∧ tr.exa = some exaF
      ∧ exaF (refine_query q l1) tr.config.max_results_per_tier = .error e
      ∧ tr.searchT q = (.error e, [.L1, .L2]))
    ∨ (∃ l1 exaF l2, tr.duckduckgo q tr.config.max_results_per_tier = .ok l1
      ∧ tr.confidence_calc.calculate q l1 < tr.config.l1_threshold
      ∧ tr.exa = some exaF
      ∧ exaF (refine_query q l1) tr.config.max_results_per_tier = .ok l2
      ∧ tr.config.l2_threshold ≤ tr.confidence_calc.calculate q l2
      ∧ tr.searchT q =
          (.ok ⟨l2, .L2, tr.confidence_calc.calculate q l2, 1/200⟩, [.L1, .L2]))
    ∨ (∃ l1 exaF l2, tr.duckduckgo q tr.config.max_results_per_tier = .ok l1
      ∧ tr.confidence_calc.calculate q l1 < tr.config.l1_threshold
      ∧ tr.exa = some exaF
      ∧ exaF (refine_query q l1) tr.config.max_results_per_tier = .ok l2
      ∧ tr.confidence_calc.calculate q l2 < tr.config.l2_threshold
      ∧ tr.tavily = none
      ∧ tr.searchT q =
          (.ok ⟨l2, .L2, tr.confidence_calc.calculate q l2, 1/200⟩, [.L1, .L2]))
    ∨ (∃ l1 exaF l2 tavF e, tr.duckduckgo q tr.config.max_results_per_tier = .ok l1
      ∧ tr.confidence_calc.calculate q l1 < tr.config.l1_threshold
      ∧ tr.exa = some exaF
      ∧ exaF (refine_query q l1) tr.config.max_results_per_tier = .ok l2
      ∧ tr.confidence_calc.calculate q l2 < tr.config.l2_threshold
      ∧ tr.tavily = some tavF
      ∧ tavF ((l2.take 3).map (fun r => r.url)) = .error e
      ∧ tr.searchT q = (.error e, [.L1, .L2, .L3]))
    ∨ (∃ l1 exaF l2 tavF l3, tr.duckduckgo q tr.config.max_results_per_tier = .ok l1
      ∧ tr.confidence_calc.calculate q l1 < tr.config.l1_threshold
      ∧ tr.exa = some exaF
      ∧ exaF (refine_query q l1) tr.config.max_results_per_tier = .ok l2
      ∧ tr.confidence_calc.calculate q l2 < tr.config.l2_threshold
      ∧ tr.tavily = some tavF
      ∧ tavF ((l2.take 3).map (fun r => r.url)) = .ok l3
      ∧ tr.searchT q =
          (.ok ⟨l3, .L3, tr.confidence_calc.calculate q l3, 3/200⟩, [.L1, .L2, .L3])) := by
  rcases hD : tr.duckduckgo q tr.config.max_results_per_tier with e | l1
  · exact Or.inl ⟨e, rfl, searchT_ddg_err tr q e hD⟩
  · by_cases hc1 : tr.config.l1_threshold ≤ tr.confidence_calc.calculate q l1
    · exact Or.inr (Or.inl ⟨l1, rfl, hc1, searchT_l1_pass tr q l1 hD hc1⟩)
    · have hc1' : tr.confidence_calc.calculate q l1 < tr.config.l1_threshold :=
        not_le.mp hc1
      rcases hX : tr.exa with _ | exaF
      · exact Or.inr (Or.inr (Or.inl
          ⟨l1, rfl, hc1', rfl, searchT_exa_none tr q l1 hD hc1' hX⟩))
      · rcases h2 : exaF (refine_query q l1) tr.config.max_results_per_tier with e | l2
        · exact Or.inr (Or.inr (Or.inr (Or.inl
            ⟨l1, exaF, e, rfl, hc1', rfl, h2,
              searchT_exa_err tr q l1 exaF e hD hc1' hX h2⟩)))
        · by_cases hc2 : tr.config.l2_threshold ≤ tr.confidence_calc.calculate q l2
          · exact Or.inr (Or.inr (Or.inr (Or.inr (Or.inl
              ⟨l1, exaF, l2, rfl, hc1', rfl, h2, hc2,
                searchT_l2_pass tr q l1 l2 exaF hD hc1' hX h2 hc2⟩))))
          · have hc2' : tr.confidence_calc.calculate q l2 < tr.config.l2_threshold :=
              not_le.mp hc2
            rcases hT : tr.tavily with _ | tavF
            · exact Or.inr (Or.inr (Or.inr (Or.inr (Or.inr (Or.inl
                ⟨l1, exaF, l2, rfl, hc1', rfl, h2, hc2', rfl,
                  searchT_tavily_none tr q l1 l2 exaF hD hc1' hX h2 hc2' hT⟩)))))
            · rcases h3 : tavF ((l2.take 3).map (fun r => r.url)) with e | l3
              · exact Or.inr (Or.inr (Or.inr (Or.inr (Or.inr (Or.inr (Or.inl
                  ⟨l1, exaF, l2, tavF, e, rfl, hc1', rfl, h2, hc2', rfl, h3,
                    searchT_tavily_err tr q l1 l2 exaF tavF e hD hc1' hX h2 hc2' hT h3⟩))))))
              · exact Or.inr (Or.inr (Or.inr (Or.inr (Or.inr (Or.inr (Or.inr
                  ⟨l1, exaF, l2, tavF, l3, rfl, hc1', rfl, h2, hc2', rfl, h3,
                    searchT_l3 tr q l1 l2 l3 exaF tavF hD hc1' hX h2 hc2' hT h3⟩))))))

/-- C1: escalation is forward-only. The invoked-tier trace of a search run
is `[L1]`, `[L1, L2]` or `[L1, L2, L3]`; when the L1 confidence meets
`l1_threshold` the run returns at L1 without invoking L2; L2 is invoked only
if Exa is configured and the L1 confidence is below `l1_threshold`; L3 only
if Tavily is configured and the L2 confidence is below `l2_threshold`; and
when an unconfigured tier stops escalation the result carries the last
attempted tier's results, confidence and cost (L1 cost 0, L2 cost 0.005,
L3 cost 0.015). -/
theorem tiered_search_escalates_forward (tr : TieredRetrieval) (query : String) :
    ((tr.searchT query).2 = [RetrievalTier.L1]
      ∨ (tr.searchT query).2 = [RetrievalTier.L1, RetrievalTier.L2]
      ∨ (tr.searchT query).2 = [RetrievalTier.L1, RetrievalTier.L2, RetrievalTier.L3])
    ∧ (∀ l1, tr.duckduckgo query tr.config.max_results_per_tier = .ok l1 →
        (tr.config.l1_threshold ≤ tr.confidence_calc.calculate query l1 →
          tr.searchT query =
            (.ok ⟨l1, .L1, tr.confidence_calc.calculate query l1, 0⟩, [.L1]))
        ∧ (tr.confidence_calc.calculate query l1 < tr.config.l1_threshold →
            tr.exa = none →
          tr.searchT query =
            (.ok ⟨l1, .L1, tr.confidence_calc.calculate query l1, 0⟩, [.L1]))
        ∧ (∀ exaF l2, tr.exa = some exaF →
            tr.confidence_calc.calculate query l1 < tr.config.l1_threshold →
            exaF (refine_query query l1) tr.config.max_results_per_tier = .ok l2 →
            (tr.config.l2_threshold ≤ tr.confidence_calc.calculate query l2 →
              tr.searchT query =
                (.ok ⟨l2, .L2, tr.confidence_calc.calculate query l2, 1/200⟩,
                  [.L1, .L2]))
            ∧ (tr.confidence_calc.calculate query l2 < tr.config.l2_threshold →
                tr.tavily = none →
              tr.searchT query =
                (.ok ⟨l2, .L2, tr.confidence_calc.calculate query l2, 1/200⟩,
                  [.L1, .L2]))
            ∧ (∀ tavF l3, tr.tavily = some tavF →
                tr.confidence_calc.calculate query l2 < tr.config.l2_threshold →
                tavF ((l2.take 3).map (fun r => r.url)) = .ok l3 →
              tr.searchT query =
                (.ok ⟨l3, .L3, tr.confidence_calc.calculate query l3, 3/200⟩,
                  [.L1, .L2, .L3]))))
    ∧ (RetrievalTier.L2 ∈ (tr.searchT query).2 →
        tr.exa.isSome = true
          ∧ ∃ l1, tr.duckduckgo query tr.config.max_results_per_tier = .ok l1
            ∧ tr.confidence_calc.calculate query l1 < tr.config.l1_threshold)
    ∧ (RetrievalTier.L3 ∈ (tr.searchT query).2 →
        tr.tavily.isSome = true
          ∧ ∃ l1 exaF l2, tr.exa = some exaF
            ∧ tr.duckduckgo query tr.config.max_results_per_tier = .ok l1
            ∧ tr.confidence_calc.calculate query l1 < tr.config.l1_threshold
            ∧ exaF (refine_query query l1) tr.config.max_results_per_tier = .ok l2
            ∧ tr.confidence_calc.calculate query l2 < tr.config.l2_threshold) := by
  refine ⟨?_, ?_, ?_, ?_⟩
  · rcases searchT_branches tr query with
      ⟨e, hD, hS⟩ | ⟨l1, hD, hc1, hS⟩ | ⟨l1, hD, hc1, hX, hS⟩ |
      ⟨l1, exaF, e, hD, hc1, hX, h2, hS⟩ | ⟨l1, exaF, l2, hD, hc1, hX, h2, hc2, hS⟩ |
      ⟨l1, exaF, l2, hD, hc1, hX, h2, hc2, hT, hS⟩ |
      ⟨l1, exaF, l2, tavF, e, hD, hc1, hX, h2, hc2, hT, h3, hS⟩ |
      ⟨l1, exaF, l2, tavF, l3, hD, hc1, hX, h2, hc2, hT, h3, hS⟩ <;>
      rw [hS] <;> simp
  · intro l1 hD
    refine ⟨?_, ?_, ?_⟩
    · intro hc1
      exact searchT_l1_pass tr query l1 hD hc1
    · intro hc1 hX
      exact searchT_exa_none tr query l1 hD hc1 hX
    · intro exaF l2 hX hc1 h2
      refine ⟨?_, ?_, ?_⟩
      · intro hc2
        exact searchT_l2_pass tr query l1 l2 exaF hD hc1 hX h2 hc2
      · intro hc2 hT
        exact searchT_tavily_none tr query l1 l2 exaF hD hc1 hX h2 hc2 hT
      · intro tavF l3 hT hc2 h3
        exact searchT_l3 tr query l1 l2 l3 exaF tavF hD hc1 hX h2 hc2 hT h3
  · intro hmem
    rcases searchT_branches tr query with
      ⟨e, hD, hS⟩ | ⟨l1, hD, hc1, hS⟩ | ⟨l1, hD, hc1, hX, hS⟩ |
      ⟨l1, exaF, e, hD, hc1, hX, h2, hS⟩ | ⟨l1, exaF, l2, hD, hc1, hX, h2, hc2, hS⟩ |
      ⟨l1, exaF, l2, hD, hc1, hX, h2, hc2, hT, hS⟩ |
      ⟨l1, exaF, l2, tavF, e, hD, hc1, hX, h2, hc2, hT, h3, hS⟩ |
      ⟨l1, exaF, l2, tavF, l3, hD, hc1, hX, h2, hc2, hT, h3, hS⟩ <;>
      rw [hS] at hmem <;> simp at hmem <;>
      exact ⟨by rw [hX]; rfl, l1, hD, hc1⟩
  · intro hmem
    rcases searchT_branches tr query with
      ⟨e, hD, hS⟩ | ⟨l1, hD, hc1, hS⟩ | ⟨l1, hD, hc1, hX, hS⟩ |
      ⟨l1, exaF, e, hD, hc1, hX, h2, hS⟩ | ⟨l1, exaF, l2, hD, hc1, hX, h2, hc2, hS⟩ |
      ⟨l1, exaF, l2, hD, hc1, hX, h2, hc2, hT, hS⟩ |
      ⟨l1, exaF, l2, tavF, e, hD, hc1, hX, h2, hc2, hT, h3, hS⟩ |
      ⟨l1, exaF, l2, tavF, l3, hD, hc1, hX, h2, hc2, hT, h3, hS⟩ <;>
      rw [hS] at hmem <;> simp at hmem <;>
      exact ⟨by rw [hT]; rfl, l1, exaF, l2, hX, hD, hc1, h2, hc2⟩

/-- Concrete engine for exercising the L1 short-circuit: a stub DuckDuckGo
backend returning one result, no optional tiers, threshold 0. -/
def trL1Stub : TieredRetrieval :=
  { duckduckgo := fun _ _ => .ok [⟨"t", "u", none, none⟩]
    exa := none
    tavily := none
    confidence_calc := ConfidenceCalculator.new
    config := { l1_threshold := 0, l2_threshold := 1, max_results_per_tier := 10 } }

/-- Nonnegativity of `calculate`, by the clamp. -/
theorem calculate_nonneg (c : ConfidenceCalculator) (query : String)
    (results : List SearchResult) : 0 ≤ c.calculate query results := by
  unfold ConfidenceCalculator.calculate
  split_ifs with h
  · exact le_refl 0
  · exact (rustClamp_bounds 0 1 _ (by norm_num)).1

/-- Witness for C1: on a concrete engine whose L1 confidence meets the
threshold, the search returns at L1 with cost 0 and trace `[L1]`. -/
theorem tiered_search_escalates_forward_witness :
    trL1Stub.searchT "rust" =
      (.ok ⟨[⟨"t", "u", none, none⟩], .L1,
        trL1Stub.confidence_calc.calculate "rust" [⟨"t", "u", none, none⟩], 0⟩,
       [.L1]) :=
  ((tiered_search_escalates_forward trL1Stub "rust").2.1
    [⟨"t", "u", none, none⟩] rfl).1
    (calculate_nonneg trL1Stub.confidence_calc "rust" [⟨"t", "u", none, none⟩])

/-- C5: a failing backend call of an invoked tier (network, API or parse
error) is surfaced as the result of the whole search — the orchestrator does
not fall back to an earlier tier's results — while an unconfigured optional
tier is not a failure: the search still returns `Ok` with the best tier
reached. -/
theorem tiered_search_propagates_errors (tr : TieredRetrieval) (query : String) :
    (∀ e, tr.duckduckgo query tr.config.max_results_per_tier = .error e →
        tr.search query = .error e)
    ∧ (∀ l1 exaF e, tr.duckduckgo query tr.config.max_results_per_tier = .ok l1 →
        tr.confidence_calc.calculate query l1 < tr.config.l1_threshold →
        tr.exa = some exaF →
        exaF (refine_query query l1) tr.config.max_results_per_tier = .error e →
        tr.search query = .error e)
    ∧ (∀ l1 exaF l2 tavF e,
        tr.duckduckgo query tr.config.max_results_per_tier = .ok l1 →
        tr.confidence_calc.calculate query l1 < tr.config.l1_threshold →
        tr.exa = some exaF →
        exaF (refine_query query l1) tr.config.max_results_per_tier = .ok l2 →
        tr.confidence_calc.calculate query l2 < tr.config.l2_threshold →
        tr.tavily = some tavF →
        tavF ((l2.take 3).map (fun r => r.url)) = .error e →
        tr.search query = .error e)
    ∧ (∀ l1, tr.duckduckgo query tr.config.max_results_per_tier = .ok l1 →
        tr.exa = none → ∃ res, tr.search query = .ok res)
    ∧ (∀ l1 exaF l2, tr.duckduckgo query tr.config.max_results_per_tier = .ok l1 →
        tr.confidence_calc.calculate query l1 < tr.config.l1_threshold →
        tr.exa = some exaF →
        exaF (refine_query query l1) tr.config.max_results_per_tier = .ok l2 →
        tr.tavily = none → ∃ res, tr.search query = .ok res) := by
  refine ⟨?_, ?_, ?_, ?_, ?_⟩
  · intro e hD
    rw [TieredRetrieval.search, searchT_ddg_err tr query e hD]
  · intro l1 exaF e hD hc1 hX h2
    rw [TieredRetrieval.search, searchT_exa_err tr query l1 exaF e hD hc1 hX h2]
  · intro l1 exaF l2 tavF e hD hc1 hX h2 hc2 hT h3
    rw [TieredRetrieval.search,
      searchT_tavily_err tr query l1 l2 exaF tavF e hD hc1 hX h2 hc2 hT h3]
  · intro l1 hD hX
    by_cases hc1 : tr.config.l1_threshold ≤ tr.confidence_calc.calculate query l1
    · exact ⟨_, by rw [TieredRetrieval.search, searchT_l1_pass tr query l1 hD hc1]⟩
    · exact ⟨_, by
        rw [TieredRetrieval.search,
          searchT_exa_none tr query l1 hD (not_le.mp hc1) hX]⟩
  · intro l1 exaF l2 hD hc1 hX h2 hT
    by_cases hc2 : tr.config.l2_threshold ≤ tr.confidence_calc.calculate query l2
    · exact ⟨_, by
        rw [TieredRetrieval.search,
          searchT_l2_pass tr query l1 l2 exaF hD hc1 hX h2 hc2]⟩
    · exact ⟨_, by
        rw [TieredRetrieval.search,
          searchT_tavily_none tr query l1 l2 exaF hD hc1 hX h2 (not_le.mp hc2) hT]⟩

/-- Concrete engine whose L1 backend fails with a network error. -/
def trL1Fail : TieredRetrieval :=
  { duckduckgo := fun _ _ => .error (.NetworkError "connection refused")
    exa := none
    tavily := none
    confidence_calc := ConfidenceCalculator.new
    config := TieredConfig.default }

/-- Witness for C5: a failing L1 call surfaces its network error. -/
theorem tiered_search_propagates_errors_witness :
    trL1Fail.search "rust" = .error (.NetworkError "connection refused") :=
  (tiered_search_propagates_errors trL1Fail "rust").1
    (.NetworkError "connection refused") rfl

/-- Query refinement as the claim words it: up to 5 distinct snippet words
longer than 3 characters, first occurrence of a repeated word winning,
appended to the original query. -/
def refineClaimed (original : String) (l1_results : List SearchResult) : String :=
  let keywords :=
    (dedupFirst (((l1_results.filterMap (fun r => r.snippet)).flatMap
      (fun s => wordsOf s)).filter (fun w => 3 < w.length))).take 5
  if keywords.isEmpty then original
  else String.mk (original.data ++ ' ' :: joinWords keywords)

/-- Counterexample to C9: the code neither deduplicates snippet words nor
measures them in characters (its filter is on UTF-8 byte length), so on a
snippet consisting of one repeated two-character CJK word the code appends
the word twice while the claimed rule appends nothing. -/
theorem refine_query_counterexample :
    refine_query "q" [⟨"t", "u", some "中文 中文", none⟩]
        ≠ refineClaimed "q" [⟨"t", "u", some "中文 中文", none⟩]
      ∧ refine_query "q" [⟨"t", "u", some "中文 中文", none⟩] = "q 中文 中文"
      ∧ refineClaimed "q" [⟨"t", "u", some "中文 中文", none⟩] = "q" := by
  refine ⟨by decide, by decide, by decide⟩

/-- Query refinement as amended: up to 5 snippet words whose UTF-8 encoding
is longer than 3 bytes, in order of appearance with duplicates retained,
appended to the original query; the query unchanged when no such word
exists. -/
def refineAmended (original : String) (l1_results : List SearchResult) : String :=
  let snippetWords := l1_results.flatMap (fun r =>
    match r.snippet with
    | none => []
    | some s => wordsOf s)
  let keywords := (snippetWords.filter (fun w => 3 < utf8Len w)).take 5
  if keywords.isEmpty then original
  else String.mk (original.data ++ ' ' :: joinWords keywords)

/-- C9 (amended): `refine_query` appends up to 5 snippet words longer than
3 UTF-8 bytes, in order of appearance, duplicates retained. -/
theorem refine_query_amended_correct (original : String)
    (l1_results : List SearchResult) :
    refine_query original l1_results = refineAmended original l1_results := by
  have h : ∀ (l : List SearchResult),
      (l.filterMap (fun r => r.snippet)).flatMap (fun s => wordsOf s)
        = l.flatMap (fun r =>
            match r.snippet with
            | none => []
            | some s => wordsOf s) := by
    intro l
    induction l with
    | nil => rfl
    | cons r rs ih =>
      cases hr : r.snippet <;>
        simp [List.filterMap_cons, hr, ih]
  unfold refine_query refineAmended
  rw [h]

/-- Concrete engine with only the free L1 backend configured (stubbed to
return no results). -/
def trDirectCall : TieredRetrieval :=
  { duckduckgo := fun _ _ => .ok []
    exa := none
    tavily := none
    confidence_calc := ConfidenceCalculator.new
    config := TieredConfig.default }

/-- Counterexample to C4: a concrete search run performs a backend HTTP
request while acquiring no connection-pool permit and no rate-limiter token
— the DuckDuckGo call is issued directly on the client's own
`reqwest::Client`, bypassing `PooledClient` and `RateLimiter` entirely. -/
theorem backend_call_without_pool_counterexample :
    trDirectCall.searchEvents "rust" = [ResourceEvent.httpRequest BackendId.ddg]
      ∧ ResourceEvent.poolAcquire ∉ trDirectCall.searchEvents "rust"
      ∧ ResourceEvent.rateAcquire ∉ trDirectCall.searchEvents "rust" := by
  have h : trDirectCall.searchT "rust" =
      (.ok ⟨[], .L1, trDirectCall.confidence_calc.calculate "rust" [], 0⟩, [.L1]) :=
    searchT_exa_none trDirectCall "rust" [] rfl (by
      show trDirectCall.confidence_calc.calculate "rust" [] < 4/5
      rw [show trDirectCall.confidence_calc.calculate "rust" [] = 0 from rfl]
      norm_num) rfl
  refine ⟨?_, ?_, ?_⟩ <;>
    simp [TieredRetrieval.searchEvents, h, tierEvents]

/-- C4 (amended): no backend invocation made by `TieredRetrieval::search`
goes through the `ConnectionPool` or a `RateLimiter` — every resource event
of a search run, on any configuration and query, is a direct HTTP request;
no pool permit and no rate token is ever acquired. (`PooledClient`, whose
calls would emit `pooledClientEvents`, exists in the crate but is never
invoked by the tiered engine.) -/
theorem search_backend_calls_are_direct (tr : TieredRetrieval) (query : String) :
    ResourceEvent.poolAcquire ∉ tr.searchEvents query
      ∧ ResourceEvent.rateAcquire ∉ tr.searchEvents query
      ∧ ∀ ev ∈ tr.searchEvents query, ∃ b, ev = ResourceEvent.httpRequest b := by
  have hshape : (tr.searchT query).2 = [RetrievalTier.L1]
      ∨ (tr.searchT query).2 = [RetrievalTier.L1, RetrievalTier.L2]
      ∨ (tr.searchT query).2
          = [RetrievalTier.L1, RetrievalTier.L2, RetrievalTier.L3] := by
    rcases searchT_branches tr query with
      ⟨e, hD, hS⟩ | ⟨l1, hD, hc1, hS⟩ | ⟨l1, hD, hc1, hX, hS⟩ |
      ⟨l1, exaF, e, hD, hc1, hX, h2, hS⟩ | ⟨l1, exaF, l2, hD, hc1, hX, h2, hc2, hS⟩ |
      ⟨l1, exaF, l2, hD, hc1, hX, h2, hc2, hT, hS⟩ |
      ⟨l1, exaF, l2, tavF, e, hD, hc1, hX, h2, hc2, hT, h3, hS⟩ |
      ⟨l1, exaF, l2, tavF, l3, hD, hc1, hX, h2, hc2, hT, h3, hS⟩ <;>
      rw [hS] <;> simp
  unfold TieredRetrieval.searchEvents
  rcases hshape with h | h | h <;> rw [h] <;>
    refine ⟨by simp [tierEvents], by simp [tierEvents], ?_⟩ <;>
    intro ev hev <;> simp [tierEvents] at hev
  · exact ⟨_, hev⟩
  · rcases hev with rfl | rfl <;> exact ⟨_, rfl⟩
  · rcases hev with rfl | rfl | rfl <;> exact ⟨_, rfl⟩

/-- Serializable cached result of `zero_copy.rs`: a search result plus the
creation timestamp (seconds since the epoch). -/
structure CachedSearchResult where
  title : String
  url : String
  snippet : Option String
  content : Option String
  timestamp : Nat
deriving DecidableEq, Repr

/-- The search-result cache: the underlying map is modelled as an
association list whose head plays the role of `HashMap::keys().next()`
(the arbitrary entry the simplified LRU evicts); rkyv byte round-tripping
is modelled as the identity on the stored batch. -/
structure SearchCache where
  cache : List (String × List CachedSearchResult)
  max_size : Nat
  ttl_seconds : Nat
deriving DecidableEq, Repr

/-- `SearchCache::new`: empty map with the given bounds. -/
def SearchCache.new (max_size ttl_seconds : Nat) : SearchCache :=
  { cache := [], max_size := max_size, ttl_seconds := ttl_seconds }

/-- `HashMap::insert`: replace the binding in place if the key is bound,
else add a new binding. -/
def insertEntry (key : String) (v : List CachedSearchResult) :
    List (String × List CachedSearchResult) → List (String × List CachedSearchResult)
  | [] => [(key, v)]
  | (k, w) :: rest =>
    if k = key then (key, v) :: rest else (k, w) :: insertEntry key v rest

/-- `HashMap::get`: the value bound to the key, if any. -/
def lookupEntry (key : String) :
    List (String × List CachedSearchResult) → Option (List CachedSearchResult)
  | [] => none
  | (k, w) :: rest => if k = key then some w else lookupEntry key rest

/-- `HashMap::remove`: drop the binding of the key, if any. -/
def removeEntry (key : String) :
    List (String × List CachedSearchResult) → List (String × List CachedSearchResult)
  | [] => []
  | (k, w) :: rest => if k = key then rest else (k, w) :: removeEntry key rest

/-- `SearchCache::store`: when the map has reached `max_size`, evict one
entry (the map's first key) before inserting the serialized batch. -/
def SearchCache.store (c : SearchCache) (key : String)
    (results : List CachedSearchResult) : SearchCache :=
  let m := if c.max_size ≤ c.cache.length then
             match c.cache with
             | [] => []
             | _ :: rest => rest
           else c.cache
  { c with cache := insertEntry key results m }

/-- `SearchCache::get`: a hit only when the key is bound and the first
element's timestamp is within `ttl_seconds` of `now`; an expired entry is
skipped (not removed); a batch with no first element has no timestamp to
check and is always returned. -/
def SearchCache.get (c : SearchCache) (key : String) (now : Nat) :
    Option (List CachedSearchResult) :=
  match lookupEntry key c.cache with
  | none => none
  | some rs =>
    match rs with
    | [] => some rs
    | r :: _ => if c.ttl_seconds < now - r.timestamp then none else some rs

/-- `SearchCache::remove`. -/
def SearchCache.remove (c : SearchCache) (key : String) : SearchCache :=
  { c with cache := removeEntry key c.cache }

/-- `SearchCache::clear`. -/
def SearchCache.clear (c : SearchCache) : SearchCache :=
  { c with cache := [] }

/-- The mutating cache operations, for stating the size invariant. -/
inductive CacheOp where
  | storeOp (key : String) (results : List CachedSearchResult)
  | removeOp (key : String)
  | clearOp

/-- One cache operation applied to a cache state. -/
def applyCacheOp (c : SearchCache) : CacheOp → SearchCache
  | .storeOp key results => c.store key results
  | .removeOp key => c.remove key
  | .clearOp => c.clear

/-- A sequence of cache operations applied in order. -/
def runCacheOps (c : SearchCache) (ops : List CacheOp) : SearchCache :=
  ops.foldl applyCacheOp c

/-- Looking up the key just inserted yields the inserted value. -/
theorem lookupEntry_insertEntry (key : String) (v : List CachedSearchResult)
    (m : List (String × List CachedSearchResult)) :
    lookupEntry key (insertEntry key v m) = some v := by
  induction m with
  | nil => simp [insertEntry, lookupEntry]
  | cons e rest ih =>
    obtain ⟨k, w⟩ := e
    by_cases h : k = key
    · simp [insertEntry, h, lookupEntry]
    · simp [insertEntry, h, lookupEntry, ih]

/-- Inserting grows the map by at most one binding. -/
theorem insertEntry_length_le (key : String) (v : List CachedSearchResult)
    (m : List (String × List CachedSearchResult)) :
    (insertEntry key v m).length ≤ m.length + 1 := by
  induction m with
  | nil => simp [insertEntry]
  | cons e rest ih =>
    obtain ⟨k, w⟩ := e
    by_cases h : k = key
    · simp [insertEntry, h]
    · simp only [insertEntry, h, if_false, List.length_cons]
      omega

/-- Removing never grows the map. -/
theorem removeEntry_length_le (key : String)
    (m : List (String × List CachedSearchResult)) :
    (removeEntry key m).length ≤ m.length := by
  induction m with
  | nil => simp [removeEntry]
  | cons e rest ih =>
    obtain ⟨k, w⟩ := e
    by_cases h : k = key
    · simp [removeEntry, h]
    · simp only [removeEntry, h, if_false, List.length_cons]
      omega

/-- A store keeps the entry count within a positive `max_size`. -/
theorem store_length_le (c : SearchCache) (key : String)
    (results : List CachedSearchResult) (hmax : 0 < c.max_size)
    (hlen : c.cache.length ≤ c.max_size) :
    (c.store key results).cache.length ≤ c.max_size := by
  unfold SearchCache.store
  rcases hc : c.cache with _ | ⟨e, rest⟩
  · rw [hc] at hlen
    simp only [List.length_nil]
    rw [if_neg (by omega)]
    have h1 := insertEntry_length_le key results []
    simp only [List.length_nil] at h1
    omega
  · rw [hc] at hlen
    by_cases hfull : c.max_size ≤ (e :: rest).length
    · rw [if_pos hfull]
      have h1 := insertEntry_length_le key results rest
      have h2 : (e :: rest).length = rest.length + 1 := rfl
      dsimp only
      omega
    · rw [if_neg hfull]
      have h1 := insertEntry_length_le key results (e :: rest)
      dsimp only
      omega

/-- C6: after `store(key, results)`, a `get(key)` within `ttl_seconds` of
the entry's timestamp (the first element's) returns the stored batch
unchanged, and once more than `ttl_seconds` have elapsed it returns a miss
while the expired entry stays in the map — `get` skips it without purging. -/
theorem cache_store_get_ttl (c : SearchCache) (key : String)
    (results : List CachedSearchResult) (now : Nat) :
    ∀ r rest, results = r :: rest → r.timestamp ≤ now →
      (now - r.timestamp ≤ c.ttl_seconds →
        (c.store key results).get key now = some results)
      ∧ (c.ttl_seconds < now - r.timestamp →
        (c.store key results).get key now = none
          ∧ lookupEntry key (c.store key results).cache = some results) := by
  intro r rest hrs hts
  have hl : lookupEntry key (c.store key results).cache = some results := by
    unfold SearchCache.store
    exact lookupEntry_insertEntry key results _
  have hget : (c.store key results).get key now
      = if c.ttl_seconds < now - r.timestamp then none else some results := by
    unfold SearchCache.get
    rw [hl, hrs]
    rfl
  constructor
  · intro hfresh
    rw [hget, if_neg (not_lt.mpr hfresh)]
  · intro hexp
    exact ⟨by rw [hget, if_pos hexp], hl⟩

/-- Concrete cache for the C6 witness. -/
def cacheW : SearchCache := SearchCache.new 10 100

/-- Concrete one-element batch stamped at time 5 for the C6 witness. -/
def batchW : List CachedSearchResult := [⟨"t", "u", none, none, 5⟩]

/-- Witness for C6: at time 50 (within the TTL) the stored batch is
returned; at time 500 (past the TTL) the read misses. -/
theorem cache_store_get_ttl_witness :
    (cacheW.store "k" batchW).get "k" 50 = some batchW
      ∧ (cacheW.store "k" batchW).get "k" 500 = none :=
  ⟨(cache_store_get_ttl cacheW "k" batchW 50 ⟨"t", "u", none, none, 5⟩ [] rfl
      (by decide)).1 (by decide),
   ((cache_store_get_ttl cacheW "k" batchW 500 ⟨"t", "u", none, none, 5⟩ [] rfl
      (by decide)).2 (by decide)).1⟩

/-- Every cache operation preserves `max_size` and keeps the entry count
within a positive `max_size`. -/
theorem runCacheOps_length_le (max_size : Nat) (hmax : 0 < max_size) :
    ∀ (ops : List CacheOp) (c : SearchCache), c.max_size = max_size →
      c.cache.length ≤ max_size →
      (runCacheOps c ops).cache.length ≤ max_size := by
  intro ops
  induction ops with
  | nil => intro c hm hl; exact hl
  | cons op rest ih =>
    intro c hm hl
    have hstep : (applyCacheOp c op).max_size = max_size ∧
        (applyCacheOp c op).cache.length ≤ max_size := by
      cases op with
      | storeOp key results =>
        refine ⟨hm, ?_⟩
        have := store_length_le c key results (by omega) (by omega)
        simpa [applyCacheOp, hm] using this
      | removeOp key =>
        refine ⟨hm, ?_⟩
        have := removeEntry_length_le key c.cache
        simp only [applyCacheOp, SearchCache.remove]
        omega
      | clearOp =>
        exact ⟨hm, by simp [applyCacheOp, SearchCache.clear]⟩
    exact ih (applyCacheOp c op) hstep.1 hstep.2

/-- C7: starting from an empty cache with capacity `max_size > 0`, no
sequence of store/remove/clear operations pushes the entry count past
`max_size`; a store hitting a cache at capacity first evicts exactly one
existing entry (the map's first) and then inserts. -/
theorem cache_size_invariant (max_size ttl_seconds : Nat) (hmax : 0 < max_size)
    (ops : List CacheOp) :
    (runCacheOps (SearchCache.new max_size ttl_seconds) ops).cache.length ≤ max_size
    ∧ (∀ (c : SearchCache) (key : String) (results : List CachedSearchResult),
        c.max_size = max_size → c.cache.length = max_size →
        (∃ ev rest, c.cache = ev :: rest
          ∧ (c.store key results).cache = insertEntry key results rest)
        ∧ (c.store key results).cache.length ≤ max_size) := by
  constructor
  · exact runCacheOps_length_le max_size hmax ops
      (SearchCache.new max_size ttl_seconds) rfl (by simp [SearchCache.new])
  · intro c key results hm hlen
    rcases hc : c.cache with _ | ⟨ev, rest⟩
    · exfalso
      rw [hc] at hlen
      simp at hlen
      omega
    · have hfull : c.max_size ≤ c.cache.length := by rw [hm, hlen]
      have hstore : (c.store key results).cache = insertEntry key results rest := by
        unfold SearchCache.store
        rw [if_pos hfull, hc]
      refine ⟨⟨ev, rest, rfl, hstore⟩, ?_⟩
      rw [hstore]
      have h1 := insertEntry_length_le key results rest
      have h2 : c.cache.length = rest.length + 1 := by rw [hc]; rfl
      omega

/-- Witness for C7: with capacity 2, three stores under distinct keys leave
at most 2 entries. -/
theorem cache_size_invariant_witness :
    (runCacheOps (SearchCache.new 2 100)
      [.storeOp "a" [], .storeOp "b" [], .storeOp "c" []]).cache.length ≤ 2 :=
  (cache_size_invariant 2 100 (by decide)
    [.storeOp "a" [], .storeOp "b" [], .storeOp "c" []]).1

/-- Rate-limiter configuration (`rate_limiter.rs`). -/
structure RateLimiterConfig where
  requests_per_second : ℚ
  burst_size : Nat
deriving DecidableEq, Repr

/-- Token-bucket state: token count, cap, refill rate, last refill time.
Wall-clock instants are modelled as rationals. -/
structure RateLimiter where
  tokens : ℚ
  max_tokens : ℚ
  refill_rate : ℚ
  last_refill : ℚ
deriving DecidableEq, Repr

/-- `RateLimiter::new` at construction time `now`: the bucket starts full
at `burst_size` tokens. -/
def RateLimiter.new (cfg : RateLimiterConfig) (now : ℚ) : RateLimiter :=
  { tokens := (cfg.burst_size : ℚ)
    max_tokens := (cfg.burst_size : ℚ)
    refill_rate := cfg.requests_per_second
    last_refill := now }

/-- `RateLimiter::refill` at time `now`: elapsed time since the last refill
(`Instant::duration_since` saturates at zero) converts to tokens at
`refill_rate`, capped at `max_tokens`; nothing happens when no time has
elapsed. -/
def RateLimiter.refill (s : RateLimiter) (now : ℚ) : RateLimiter :=
  let elapsed := max (now - s.last_refill) 0
  if 0 < elapsed then
    { s with tokens := min (s.tokens + elapsed * s.refill_rate) s.max_tokens
             last_refill := now }
  else s

/-- `RateLimiter::try_acquire` at time `now`: refill, then deduct one token
if at least one is available, else fail leaving the count unchanged. -/
def RateLimiter.try_acquire (s : RateLimiter) (now : ℚ) : Bool × RateLimiter :=
  let s1 := s.refill now
  if 1 ≤ s1.tokens then (true, { s1 with tokens := s1.tokens - 1 })
  else (false, s1)

/-- The primitive state transitions of the limiter: one `try_acquire`
attempt or one bare `refill`, each at some instant. A blocking `acquire`
is, statewise, a sequence of `tryAcq` attempts (its loop body performs
exactly the refill-then-deduct step of `try_acquire`), so sequences of
these operations cover `try_acquire`/`acquire`/`refill` call patterns. -/
inductive RLOp where
  | tryAcq (now : ℚ)
  | refillOp (now : ℚ)

/-- One limiter operation applied to a state. -/
def applyRLOp (s : RateLimiter) : RLOp → RateLimiter
  | .tryAcq now => (s.try_acquire now).2
  | .refillOp now => s.refill now

/-- A sequence of limiter operations applied in order. -/
def runRLOps (s : RateLimiter) (ops : List RLOp) : RateLimiter :=
  ops.foldl applyRLOp s

/-- Refill preserves the cap, the rate, and the token bounds. -/
theorem refill_invariant (s : RateLimiter) (now : ℚ) (hr : 0 ≤ s.refill_rate)
    (h0 : 0 ≤ s.tokens) (h1 : s.tokens ≤ s.max_tokens) :
    (s.refill now).max_tokens = s.max_tokens
      ∧ (s.refill now).refill_rate = s.refill_rate
      ∧ 0 ≤ (s.refill now).tokens ∧ (s.refill now).tokens ≤ s.max_tokens := by
  unfold RateLimiter.refill
  dsimp only
  split_ifs with h
  · refine ⟨rfl, rfl, ?_, ?_⟩
    · have he : 0 ≤ max (now - s.last_refill) 0 * s.refill_rate :=
        mul_nonneg (le_of_lt h) hr
      have : 0 ≤ s.tokens + max (now - s.last_refill) 0 * s.refill_rate := by linarith
      exact le_min this (by linarith)
    · exact min_le_right _ _
  · exact ⟨rfl, rfl, h0, h1⟩

/-- A `try_acquire` attempt preserves the cap, the rate, and the token
bounds. -/
theorem try_acquire_invariant (s : RateLimiter) (now : ℚ) (hr : 0 ≤ s.refill_rate)
    (h0 : 0 ≤ s.tokens) (h1 : s.tokens ≤ s.max_tokens) :
    (s.try_acquire now).2.max_tokens = s.max_tokens
      ∧ (s.try_acquire now).2.refill_rate = s.refill_rate
      ∧ 0 ≤ (s.try_acquire now).2.tokens
      ∧ (s.try_acquire now).2.tokens ≤ s.max_tokens := by
  obtain ⟨hm, hrr, ht0, ht1⟩ := refill_invariant s now hr h0 h1
  unfold RateLimiter.try_acquire
  dsimp only
  split_ifs with h
  · exact ⟨hm, hrr, by dsimp only; linarith, by dsimp only; linarith⟩
  · exact ⟨hm, hrr, ht0, ht1⟩

/-- Any sequence of limiter operations preserves the cap, the rate, and the
token bounds. -/
theorem runRLOps_invariant (M R : ℚ) (hr : 0 ≤ R) :
    ∀ (ops : List RLOp) (s : RateLimiter), s.max_tokens = M → s.refill_rate = R →
      0 ≤ s.tokens → s.tokens ≤ M →
      (runRLOps s ops).max_tokens = M ∧ (runRLOps s ops).refill_rate = R
        ∧ 0 ≤ (runRLOps s ops).tokens ∧ (runRLOps s ops).tokens ≤ M := by
  intro ops
  induction ops with
  | nil => intro s hm hrr h0 h1; exact ⟨hm, hrr, h0, h1⟩
  | cons op rest ih =>
    intro s hm hrr h0 h1
    have hstep : (applyRLOp s op).max_tokens = M ∧ (applyRLOp s op).refill_rate = R
        ∧ 0 ≤ (applyRLOp s op).tokens ∧ (applyRLOp s op).tokens ≤ M := by
      cases op with
      | tryAcq now =>
        have := try_acquire_invariant s now (by rw [hrr]; exact hr) h0 (by rw [hm]; exact h1)
        exact ⟨by rw [← hm]; exact this.1, by rw [← hrr]; exact this.2.1,
          this.2.2.1, by rw [← hm]; exact this.2.2.2⟩
      | refillOp now =>
        have := refill_invariant s now (by rw [hrr]; exact hr) h0 (by rw [hm]; exact h1)
        exact ⟨by rw [← hm]; exact this.1, by rw [← hrr]; exact this.2.1,
          this.2.2.1, by rw [← hm]; exact this.2.2.2⟩
    exact ih (applyRLOp s op) hstep.1 hstep.2.1 hstep.2.2.1 hstep.2.2.2

/-- An attempt made with no time elapsed since the last refill skips the
refill entirely. -/
theorem try_acquire_now_eq (s : RateLimiter) (now : ℚ) (h : s.last_refill = now) :
    s.try_acquire now =
      if 1 ≤ s.tokens then (true, { s with tokens := s.tokens - 1 })
      else (false, s) := by
  unfold RateLimiter.try_acquire RateLimiter.refill
  dsimp only
  simp [h]

/-- State after `k` immediate `try_acquire` calls from a fresh limiter:
each of the first `burst_size` calls succeeds and deducts one token. -/
theorem runRLOps_replicate_tryAcq (cfg : RateLimiterConfig) (t0 : ℚ) :
    ∀ k : Nat, k ≤ cfg.burst_size →
      runRLOps (RateLimiter.new cfg t0) (List.replicate k (.tryAcq t0)) =
        { tokens := (cfg.burst_size : ℚ) - (k : ℚ)
          max_tokens := (cfg.burst_size : ℚ)
          refill_rate := cfg.requests_per_second
          last_refill := t0 } := by
  intro k
  induction k with
  | zero =>
    intro hk
    simp [runRLOps, RateLimiter.new]
  | succ k ih =>
    intro hk
    have hk1 : k ≤ cfg.burst_size := Nat.le_of_succ_le hk
    have htok : 1 ≤ (cfg.burst_size : ℚ) - (k : ℚ) := by
      have : (k : ℚ) + 1 ≤ (cfg.burst_size : ℚ) := by exact_mod_cast hk
      linarith
    rw [List.replicate_succ', runRLOps, List.foldl_append]
    have hprev := ih hk1
    rw [runRLOps] at hprev
    rw [hprev]
    simp only [List.foldl_cons, List.foldl_nil, applyRLOp]
    rw [try_acquire_now_eq _ t0 rfl]
    rw [if_pos htok]
    have : (cfg.burst_size : ℚ) - (k : ℚ) - 1 = (cfg.burst_size : ℚ) - ((k : ℚ) + 1) := by
      ring
    simp [this]

/-- C8: a limiter built with positive `burst_size` and positive rate starts
with `burst_size` tokens; across every operation sequence the count stays in
`[0, max_tokens]`; `try_acquire` deducts one token exactly when at least one
is available after refilling and fails otherwise without changing the count;
`refill` never pushes the count past `max_tokens`; each of the first
`burst_size` immediate `try_acquire` calls succeeds, leaving
`burst_size - k` tokens after `k` of them, and the next immediate call
fails. -/
theorem rate_limiter_token_invariant (cfg : RateLimiterConfig) (t0 : ℚ)
    (hburst : 0 < cfg.burst_size) (hrate : 0 < cfg.requests_per_second) :
    (RateLimiter.new cfg t0).tokens = (cfg.burst_size : ℚ)
    ∧ (∀ ops : List RLOp,
        0 ≤ (runRLOps (RateLimiter.new cfg t0) ops).tokens
          ∧ (runRLOps (RateLimiter.new cfg t0) ops).tokens ≤ (cfg.burst_size : ℚ))
    ∧ (∀ (s : RateLimiter) (now : ℚ),
        (1 ≤ (s.refill now).tokens →
          s.try_acquire now =
            (true, { s.refill now with tokens := (s.refill now).tokens - 1 }))
        ∧ ((s.refill now).tokens < 1 → s.try_acquire now = (false, s.refill now)))
    ∧ (∀ (s : RateLimiter) (now : ℚ), s.tokens ≤ s.max_tokens →
        (s.refill now).tokens ≤ s.max_tokens)
    ∧ (∀ k : Nat, k ≤ cfg.burst_size →
        (runRLOps (RateLimiter.new cfg t0)
          (List.replicate k (.tryAcq t0))).tokens = (cfg.burst_size : ℚ) - (k : ℚ)
        ∧ (k < cfg.burst_size →
            ((runRLOps (RateLimiter.new cfg t0)
              (List.replicate k (.tryAcq t0))).try_acquire t0).1 = true))
    ∧ ((runRLOps (RateLimiter.new cfg t0)
        (List.replicate cfg.burst_size (.tryAcq t0))).try_acquire t0).1 = false := by
  refine ⟨rfl, ?_, ?_, ?_, ?_, ?_⟩
  · intro ops
    have := runRLOps_invariant (cfg.burst_size : ℚ) cfg.requests_per_second
      (le_of_lt hrate) ops (RateLimiter.new cfg t0) rfl rfl
      (Nat.cast_nonneg _) (le_refl _)
    exact ⟨this.2.2.1, this.2.2.2⟩
  · intro s now
    constructor
    · intro h
      unfold RateLimiter.try_acquire
      rw [if_pos h]
    · intro h
      unfold RateLimiter.try_acquire
      rw [if_neg (not_le.mpr h)]
  · intro s now h
    unfold RateLimiter.refill
    dsimp only
    split_ifs with hp
    · exact min_le_right _ _
    · exact h
  · intro k hk
    have hstate := runRLOps_replicate_tryAcq cfg t0 k hk
    refine ⟨by rw [hstate], ?_⟩
    intro hklt
    have htok : 1 ≤ (cfg.burst_size : ℚ) - (k : ℚ) := by
      have : (k : ℚ) + 1 ≤ (cfg.burst_size : ℚ) := by exact_mod_cast hklt
      linarith
    rw [hstate, try_acquire_now_eq _ t0 rfl, if_pos htok]
  · have hstate := runRLOps_replicate_tryAcq cfg t0 cfg.burst_size (le_refl _)
    rw [hstate, try_acquire_now_eq _ t0 rfl, if_neg (by norm_num)]

/-- Concrete limiter configuration for the C8 witness: 1 request per second,
burst of 2. -/
def rlCfgW : RateLimiterConfig := { requests_per_second := 1, burst_size := 2 }

/-- Witness for C8: with burst 2 the bucket starts at 2 tokens and the third
immediate `try_acquire` fails. -/
theorem rate_limiter_token_invariant_witness :
    (0 < rlCfgW.burst_size ∧ (0 : ℚ) < rlCfgW.requests_per_second)
      ∧ (RateLimiter.new rlCfgW 0).tokens = (rlCfgW.burst_size : ℚ)
      ∧ ((runRLOps (RateLimiter.new rlCfgW 0)
          (List.replicate rlCfgW.burst_size (.tryAcq 0))).try_acquire 0).1 = false :=
  ⟨⟨by decide, zero_lt_one⟩,
   (rate_limiter_token_invariant rlCfgW 0 (by decide) zero_lt_one).1,
   (rate_limiter_token_invariant rlCfgW 0 (by decide) zero_lt_one).2.2.2.2.2⟩

/-- A non-empty result list scores at least 0.3 on the count step. -/
theorem score_result_count_ge (n : Nat) (h : n ≠ 0) :
    3/10 ≤ score_result_count n := by
  unfold score_result_count
  split_ifs with h0 h2 h5 h10
  · exact absurd h0 h
  · norm_num
  · norm_num
  · norm_num
  · norm_num

/-- Per-result content quality is nonnegative. -/
theorem contentQualityOf_nonneg (r : SearchResult) : 0 ≤ contentQualityOf r := by
  unfold contentQualityOf
  rcases hr : r.content with _ | c <;> dsimp only <;> split_ifs <;> norm_num

/-- URL-authority score is nonnegative. -/
theorem score_url_authority_nonneg (domains : List String)
    (results : List SearchResult) : 0 ≤ score_url_authority domains results :=
  le_min (div_nonneg (Nat.cast_nonneg _) (Nat.cast_nonneg _)) zero_le_one

/-- Content-quality score is nonnegative. -/
theorem score_content_quality_nonneg (results : List SearchResult) :
    0 ≤ score_content_quality results := by
  unfold score_content_quality
  refine le_min (div_nonneg ?_ (Nat.cast_nonneg _)) zero_le_one
  apply List.sum_nonneg
  intro x hx
  simp only [List.mem_map] at hx
  obtain ⟨r, _, rfl⟩ := hx
  exact contentQualityOf_nonneg r

/-- The unit clamp of a positive value is positive. -/
theorem rustClamp_pos (t : ℚ) (h : 0 < t) : 0 < rustClamp 0 1 t := by
  unfold rustClamp
  split_ifs with a b
  · linarith
  · norm_num
  · exact h

/-- C10: when every whitespace token of the lower-cased query is at most
two UTF-8 bytes long — so the significant-term filter leaves no query term —
the title-relevance and semantic-density sub-scores are the fixed fallback
0.5 whatever the results contain, and under the default calculator any
non-empty result list receives a strictly positive confidence. -/
theorem short_query_fallback_positive (query : String) (results : List SearchResult)
    (hshort : ∀ w ∈ wordsOf (lowerStr query), utf8Len w ≤ 2) :
    score_title_relevance query results = 1/2
      ∧ score_semantic_density query results = 1/2
      ∧ (results ≠ [] →
          0 < ConfidenceCalculator.new.calculate query results) := by
  have hq : queryWords query = [] := by
    unfold queryWords
    rw [List.filter_eq_nil_iff]
    intro w hw
    simpa using Nat.not_lt.mpr (hshort w hw)
  have htitle : score_title_relevance query results = 1/2 := by
    unfold score_title_relevance
    rw [hq]
    rfl
  have hdens : score_semantic_density query results = 1/2 := by
    unfold score_semantic_density
    rw [hq]
    rfl
  refine ⟨htitle, hdens, ?_⟩
  intro hne
  rcases results with _ | ⟨r, rs⟩
  · exact absurd rfl hne
  · have hcount : (r :: rs).length ≠ 0 := by simp
    have h1 := score_result_count_ge (r :: rs).length hcount
    have h2 := score_url_authority_nonneg
      ConfidenceCalculator.new.authority_domains (r :: rs)
    have h3 := score_content_quality_nonneg (r :: rs)
    unfold ConfidenceCalculator.calculate
    rw [if_neg (by simp)]
    rw [htitle, hdens]
    apply rustClamp_pos
    have hw : ConfidenceCalculator.new.config = ConfidenceConfig.default := rfl
    rw [hw]
    unfold ConfidenceConfig.default
    dsimp only
    linarith

/-- Witness for C10: the query "ab cd" has only 2-byte tokens, and one
result with an unrelated title still gets positive confidence. -/
theorem short_query_fallback_positive_witness :
    (∀ w ∈ wordsOf (lowerStr "ab cd"), utf8Len w ≤ 2)
      ∧ 0 < ConfidenceCalculator.new.calculate "ab cd" [⟨"t", "u", none, none⟩] :=
  ⟨by decide,
   (short_query_fallback_positive "ab cd" [⟨"t", "u", none, none⟩]
      (by decide)).2.2 (by simp)⟩

/-- Witness for the amended C4: on a concrete run the DuckDuckGo HTTP
request occurs in the event trace and is certified direct by the theorem. -/
theorem search_backend_calls_are_direct_witness :
    ResourceEvent.httpRequest BackendId.ddg ∈ trDirectCall.searchEvents "rust"
      ∧ ∃ b, ResourceEvent.httpRequest BackendId.ddg
          = ResourceEvent.httpRequest b := by
  have hS : trDirectCall.searchT "rust" =
      (.ok ⟨[], .L1, trDirectCall.confidence_calc.calculate "rust" [], 0⟩, [.L1]) :=
    searchT_exa_none trDirectCall "rust" [] rfl
      (by
        rw [show trDirectCall.confidence_calc.calculate "rust" [] = 0 from rfl]
        show (0 : ℚ) < 4/5
        norm_num)
      rfl
  have hmem : ResourceEvent.httpRequest BackendId.ddg
      ∈ trDirectCall.searchEvents "rust" := by
    simp [TieredRetrieval.searchEvents, hS, tierEvents]
  exact ⟨hmem,
    (search_backend_calls_are_direct trDirectCall "rust").2.2 _ hmem⟩
